import Mathlib

/-!
Verification development for the Stablebonds scraper/alert scripts
(`web_scraper.py`, `alert_system.py`).

The embedding models spreadsheet cells, the timestamp-column index, the
closest-column lookup, the delta aggregators (`calculate_hourly_changes`,
`calculate_mtd_volume_hourly`) and the time-of-day dispatch
(`run_scheduled_alerts`).  Numeric cell contents are modelled as rationals;
times are modelled at minute granularity (every datetime the scripts build
has zero seconds and microseconds), as a count of minutes from a fixed
epoch, so that `datetime` comparison and `timedelta` arithmetic become
integer comparison and subtraction.
-/

namespace Spec2Proof

/-- A raw spreadsheet cell as seen by the Python code after
`get_all_values(value_render_option='UNFORMATTED_VALUE')`:
either empty/falsy (`blank`), a value `float()` accepts (`num`),
or content on which `float()` raises `ValueError`/`TypeError` (`garbage`). -/
inductive Cell where
  | blank : Cell
  | num : ℚ → Cell
  | garbage : Cell
deriving DecidableEq, Repr

/-- The Python exceptions that can be raised by a cell-parsing expression. -/
inductive PyErr where
  | valueError : PyErr
  | typeError : PyErr
deriving DecidableEq, Repr

/-- `float(cell) if cell else 0`: a falsy cell becomes `0`; a parseable cell
becomes its number; otherwise `float` raises (`ValueError` for a bad string,
`TypeError` for e.g. `None`; we use `valueError` as representative — the code
catches both, so the distinction never matters). -/
def floatOrZero : Cell → Except PyErr ℚ
  | Cell.blank => Except.ok 0
  | Cell.num q => Except.ok q
  | Cell.garbage => Except.error PyErr.valueError

/-- The body of the per-row `try:` block in `calculate_hourly_changes`
(lines 153-159) and `calculate_mtd_volume_hourly` (lines 277-283):
parse `prev`, then `curr`, then `face_value`, and form
`(prev_inv - curr_inv) * face_value`.  The first failing parse raises. -/
def rowTryBody (t : Cell × Cell × Cell) : Except PyErr ℚ := do
  let prev_inv ← floatOrZero t.1
  let curr_inv ← floatOrZero t.2.1
  let face_value ← floatOrZero t.2.2
  pure ((prev_inv - curr_inv) * face_value)

/-- The per-row contribution to `hour_volume`/`interval_volume`: the value of
the `try:` body, with `ValueError`/`TypeError` turned into `continue`
(contributing nothing). -/
def rowContribution (t : Cell × Cell × Cell) : ℚ :=
  match rowTryBody t with
  | Except.ok v => v
  | Except.error _ => 0

/-- Sum of per-row contributions over a list of (prev, curr, face) triples:
the inner row loop of both aggregators. -/
def triplesVolume (l : List (Cell × Cell × Cell)) : ℚ :=
  l.foldl (fun acc t => acc + rowContribution t) 0

/-- The row loop of the aggregators ran in the `Except` monad: each
iteration runs the `try:` body; `ValueError`/`TypeError` are caught
(`except (ValueError, TypeError): continue`) and any other exception would
propagate.  `float` only ever raises those two, so this always returns
`Except.ok`. -/
def triplesVolumeE (l : List (Cell × Cell × Cell)) : Except PyErr ℚ :=
  l.foldlM
    (fun acc t =>
      match rowTryBody t with
      | Except.ok v => Except.ok (acc + v)
      | Except.error PyErr.valueError => Except.ok acc
      | Except.error PyErr.typeError => Except.ok acc)
    0

/-- Zip three cell columns into row triples.  The Python loop runs
`for row_idx in range(min(len(prev), len(curr), len(face)))`, which is
exactly the truncating semantics of nested `zip`. -/
def zipCols (prevs currs faces : List Cell) : List (Cell × Cell × Cell) :=
  prevs.zip (currs.zip faces)

/-- `hour_volume` / `interval_volume` for one pair of snapshot columns:
the inner loop of `calculate_hourly_changes` (lines 150-167) and
`calculate_mtd_volume_hourly` (lines 274-291). -/
def intervalVolume (prevs currs faces : List Cell) : ℚ :=
  triplesVolume (zipCols prevs currs faces)

/-- `bonds_processed` counting for one interval: the increment sits at the
end of the `try:` block, so a row is counted exactly when all three parses
succeed. -/
def bondsCount (prevs currs faces : List Cell) : ℕ :=
  (zipCols prevs currs faces).countP (fun t => (rowTryBody t).isOk)

/-- Consecutive-interval aggregation: sum `interval_volume` over each
adjacent pair of an ordered list of snapshot columns (the structure of the
per-day loop of `calculate_mtd_volume_hourly`, lines 259-293, in the case
where no interval is skipped). -/
def consecutiveVolume (cols : List (List Cell)) (faces : List Cell) : ℚ :=
  ((cols.zip cols.tail).map (fun p => intervalVolume p.1 p.2 faces)).sum

/-- A data column as the aggregators consume it: its 1-based sheet column
index and its header timestamp, in minutes from the epoch.  (The header
string itself is only used for labels/logging in the aggregators; the
string-level parsing that produces these columns is modelled separately
below.)  `calculate_hourly_changes` and `calculate_mtd_volume_hourly` obtain
the ascending-sorted column list from `get_data_columns`; the models take it
as a parameter. -/
structure DCol where
  idx : ℕ
  time : ℤ
deriving DecidableEq, Repr

/-- `abs(col_time - target_time)` in minutes. -/
def timeDiff (c : DCol) (target : ℤ) : ℤ := |c.time - target|

/-- `timedelta(days=999)` in minutes: the initial `min_time_diff` of
`find_closest_data_column`. -/
def initMinDiff : ℤ := 999 * 24 * 60

/-- The loop of `find_closest_data_column` (lines 72-77): keep the first
column whose distance is within the window and strictly below the running
minimum. -/
def findClosestAux (target window : ℤ) :
    List DCol → Option DCol → ℤ → Option DCol
  | [], closest, _ => closest
  | c :: rest, closest, minDiff =>
      if timeDiff c target ≤ window ∧ timeDiff c target < minDiff then
        findClosestAux target window rest (some c) (timeDiff c target)
      else
        findClosestAux target window rest closest minDiff

/-- `find_closest_data_column(target_time, window_minutes)` over a given
column list (the code reads the list via `get_data_columns`, so it arrives
sorted ascending by timestamp). -/
def find_closest_data_column (cols : List DCol) (target window : ℤ) :
    Option DCol :=
  findClosestAux target window cols none initMinDiff

/-- The `while current <= end_time: append; current += hour` loop of
`calculate_hourly_changes` (lines 92-96): its trace is
`start, start+60, ...` up to the last value `≤ end`, written in closed
form. -/
def hourlyTimestamps (s e : ℤ) : List ℤ :=
  if s ≤ e then (List.range ((e - s).toNat / 60 + 1)).map (fun k => s + 60 * k)
  else []

/-- Extract one sheet column (1-based index) row-wise, as the comprehensions
`[row[idx - 1] for row in all_data_rows]` do.  Callers guard the
out-of-range case separately (it raises `IndexError` in Python), so the
default is never exercised on in-range calls. -/
def colVals (rows : List (List Cell)) (idx : ℕ) : List Cell :=
  rows.map (fun r => r.getD (idx - 1) Cell.blank)

/-- One entry of `hourly_breakdown`. -/
structure HBEntry where
  prevTime : ℤ
  currTime : ℤ
  change : Option ℚ
  missing : Bool
deriving DecidableEq, Repr

/-- The result dict of `calculate_hourly_changes` (start/end times and the
snapshot header labels are carried through unchanged and omitted here). -/
structure HourlyResult where
  netChange : ℚ
  hoursProcessed : ℕ
  bondsProcessed : ℕ
  breakdown : List HBEntry
  error : Option String
deriving DecidableEq, Repr

/-- What one iteration of the hour loop (lines 119-179) does for a target
pair: `missing` when either closest-column lookup fails, `skipped` when the
column extraction would raise `IndexError` (caught, `continue`), and
otherwise the computed interval volume with its matched column times and
row count. -/
inductive PairOutcome where
  | missing (prevT currT : ℤ)
  | skipped
  | computed (prevT currT : ℤ) (vol : ℚ) (bonds : ℕ)
deriving DecidableEq, Repr

/-- Classify one (prev_target, curr_target) pair exactly as the loop body
does. -/
def classifyPair (cols : List DCol) (rows : List (List Cell))
    (faces : List Cell) (prevT currT : ℤ) : PairOutcome :=
  match find_closest_data_column cols prevT 30,
        find_closest_data_column cols currT 30 with
  | some pc, some cc =>
      if rows.any (fun r => r.length < pc.idx || r.length < cc.idx) then
        PairOutcome.skipped
      else
        PairOutcome.computed pc.time cc.time
          (intervalVolume (colVals rows pc.idx) (colVals rows cc.idx) faces)
          (bondsCount (colVals rows pc.idx) (colVals rows cc.idx) faces)
  | _, _ => PairOutcome.missing prevT currT

/-- Running state of the hour loop: cumulative volume, bonds counted on the
first iteration, hours processed, breakdown so far. -/
structure HLoopState where
  cum : ℚ
  bonds : ℕ
  hours : ℕ
  bd : List HBEntry
deriving DecidableEq, Repr

/-- One iteration of the hour loop, given its index `i` and the pair's
outcome. -/
def hourlyStep (st : HLoopState) (i : ℕ) (oc : PairOutcome) : HLoopState :=
  match oc with
  | PairOutcome.missing p c =>
      { st with bd := st.bd ++ [⟨p, c, none, true⟩] }
  | PairOutcome.skipped => st
  | PairOutcome.computed pt ct v nb =>
      { cum := st.cum + v
        bonds := st.bonds + (if i = 0 then nb else 0)
        hours := st.hours + 1
        bd := st.bd ++ [⟨pt, ct, some v, false⟩] }

/-- `calculate_hourly_changes(start_time, end_time)`: `rows` is
`all_data[1:]` (the sheet minus its header row); a row shorter than the
face-value column makes the batch fetch raise, caught into an error
result. -/
def calculate_hourly_changes (cols : List DCol) (rows : List (List Cell))
    (s e : ℤ) : HourlyResult :=
  if rows.any (fun r => r.length < 3) then
    { netChange := 0, hoursProcessed := 0, bondsProcessed := 0,
      breakdown := [], error := some "API data fetch failed" }
  else
    let faces := colVals rows 3
    let ts := hourlyTimestamps s e
    let st := ((ts.zip ts.tail).enum).foldl
      (fun st p => hourlyStep st p.1 (classifyPair cols rows faces p.2.1 p.2.2))
      ⟨0, 0, 0, []⟩
    { netChange := st.cum, hoursProcessed := st.hours,
      bondsProcessed := st.bonds, breakdown := st.bd, error := none }

/-- `ts.date()` for a minute count: days group at multiples of 1440 since
the epoch is a midnight. -/
def dayOf (t : ℤ) : ℤ := t / 1440

/-- One entry of `daily_breakdown`. -/
structure DBEntry where
  day : ℤ
  change : ℚ
  hours : ℕ
deriving DecidableEq, Repr

/-- The result dict of `calculate_mtd_volume_hourly` (times and snapshot
labels again omitted). -/
structure MtdResult where
  netChange : ℚ
  daysProcessed : ℕ
  hoursProcessed : ℕ
  bondsProcessed : ℕ
  dailyBreakdown : List DBEntry
  error : Option String
deriving DecidableEq, Repr

/-- Whether the column extraction for one MTD interval raises `IndexError`
(then caught, skipping the interval), else the interval volume and row
count. -/
def intervalOutcome (rows : List (List Cell)) (faces : List Cell)
    (pc cc : DCol) : Option (ℚ × ℕ) :=
  if rows.any (fun r => r.length < pc.idx || r.length < cc.idx) then none
  else some
    (intervalVolume (colVals rows pc.idx) (colVals rows cc.idx) faces,
     bondsCount (colVals rows pc.idx) (colVals rows cc.idx) faces)

/-- The within-day consecutive-interval loop of `calculate_mtd_volume_hourly`
(lines 259-295): returns (day_volume, day_hours, bonds added).  Bonds are
only counted on the first interval of the first enumerated day. -/
def dayLoop (rows : List (List Cell)) (faces : List Cell) (dayIdx : ℕ)
    (snaps : List DCol) : ℚ × ℕ × ℕ :=
  ((snaps.zip snaps.tail).enum).foldl
    (fun st p =>
      match intervalOutcome rows faces p.2.1 p.2.2 with
      | none => st
      | some (v, nb) =>
          (st.1 + v, st.2.1 + 1,
           st.2.2 + (if dayIdx = 0 ∧ p.1 = 0 then nb else 0)))
    (0, 0, 0)

/-- `calculate_mtd_volume_hourly(end_time)`: `monthStart` is the
`now.replace(day=1, hour=0, minute=0, ...)` instant (wall-clock input),
`cols` the `get_data_columns` output, `rows` the sheet minus its header. -/
def calculate_mtd_volume_hourly (cols : List DCol) (rows : List (List Cell))
    (monthStart endTime : ℤ) : MtdResult :=
  let monthCols := cols.filter (fun c => monthStart ≤ c.time && c.time ≤ endTime)
  let days := (monthCols.map (fun c => dayOf c.time)).dedup
  if days.isEmpty then
    { netChange := 0, daysProcessed := 0, hoursProcessed := 0,
      bondsProcessed := 0, dailyBreakdown := [],
      error := some "Insufficient data for MTD calculation" }
  else if rows.any (fun r => r.length < 3) then
    { netChange := 0, daysProcessed := 0, hoursProcessed := 0,
      bondsProcessed := 0, dailyBreakdown := [],
      error := some "API data fetch failed" }
  else
    let faces := colVals rows 3
    let sortedDays := days.insertionSort (· ≤ ·)
    let st := (sortedDays.enum).foldl
      (fun st p =>
        let daySnaps := (monthCols.filter (fun c => dayOf c.time = p.2)).insertionSort
          (fun a b => a.time ≤ b.time)
        if daySnaps.length < 2 then st
        else
          let r := dayLoop rows faces p.1 daySnaps
          (st.1 + r.1, st.2.1 + r.2.1, st.2.2.1 + r.2.2,
           st.2.2.2 ++ [⟨p.2, r.1, r.2.1⟩]))
      ((0 : ℚ), (0 : ℕ), (0 : ℕ), ([] : List DBEntry))
    { netChange := st.1, hoursProcessed := st.2.1,
      bondsProcessed := st.2.2.1, daysProcessed := st.2.2.2.length,
      dailyBreakdown := st.2.2.2, error := none }

/-- The three alert jobs `run_scheduled_alerts` can invoke. -/
inductive Job where
  | alert11am
  | alert6pm
  | mtd
deriving DecidableEq, Repr

/-- `run_scheduled_alerts` (lines 487-515) as a function of the wall-clock
(hour, minute): the list of jobs fired by this invocation, in call order. -/
def run_scheduled_alerts (hour minute : ℕ) : List Job :=
  if (hour = 10 ∧ minute ≥ 30) ∨ (hour = 11 ∧ minute ≤ 30) then
    [Job.alert11am, Job.mtd]
  else if (hour = 17 ∧ minute ≥ 30) ∨ (hour = 18 ∧ minute ≤ 30) then
    [Job.alert6pm]
  else if (hour = 21 ∧ minute ≥ 10) ∨ (hour = 21 ∧ minute ≤ 40) then
    [Job.alert6pm, Job.mtd]
  else []

/-- A wall-clock instant as `strptime(..., "%Y-%m-%d %H:%M")` produces it. -/
structure Timestamp where
  year : ℕ
  month : ℕ
  day : ℕ
  hour : ℕ
  minute : ℕ
deriving DecidableEq, Repr

/-- Numeric value of an ASCII digit character. -/
def digitVal (c : Char) : ℕ := c.toNat - 48

/-- Try to match the regular expression
`\((\d{4}-\d{2}-\d{2} \d{2}:\d{2})\)` exactly at the start of the character
list, returning the five captured fields.  (`\d` is modelled as an ASCII
digit.) -/
def matchTsAt : List Char → Option (ℕ × ℕ × ℕ × ℕ × ℕ)
  | '(' :: y1 :: y2 :: y3 :: y4 :: '-' :: m1 :: m2 :: '-' :: d1 :: d2 ::
      ' ' :: h1 :: h2 :: ':' :: n1 :: n2 :: ')' :: _ =>
      if y1.isDigit && y2.isDigit && y3.isDigit && y4.isDigit &&
         m1.isDigit && m2.isDigit && d1.isDigit && d2.isDigit &&
         h1.isDigit && h2.isDigit && n1.isDigit && n2.isDigit then
        some (((digitVal y1 * 10 + digitVal y2) * 10 + digitVal y3) * 10 + digitVal y4,
              digitVal m1 * 10 + digitVal m2,
              digitVal d1 * 10 + digitVal d2,
              digitVal h1 * 10 + digitVal h2,
              digitVal n1 * 10 + digitVal n2)
      else none
  | _ => none

/-- `re.search`: try the pattern at each position from the left, first match
wins. -/
def searchTs : List Char → Option (ℕ × ℕ × ℕ × ℕ × ℕ)
  | [] => none
  | c :: rest =>
      match matchTsAt (c :: rest) with
      | some t => some t
      | none => searchTs rest

/-- Gregorian leap-year rule (as `datetime` applies it). -/
def isLeapYear (y : ℕ) : Bool := (y % 4 = 0 && y % 100 ≠ 0) || y % 400 = 0

/-- Number of days of month `m` in year `y`. -/
def daysInMonth (y m : ℕ) : ℕ :=
  if m = 2 then (if isLeapYear y then 29 else 28)
  else if m = 4 ∨ m = 6 ∨ m = 9 ∨ m = 11 then 30
  else 31

/-- The calendar validation `datetime.strptime` performs on the captured
fields; a failure raises `ValueError`.  (Year 0 is below `datetime.MINYEAR`;
four digits cannot exceed `MAXYEAR`.) -/
def validDateTime (y mo d h mi : ℕ) : Bool :=
  1 ≤ y && 1 ≤ mo && mo ≤ 12 && 1 ≤ d && d ≤ daysInMonth y mo &&
    h ≤ 23 && mi ≤ 59

/-- `parse_timestamp_from_header` (lines 42-47): `re.search` for the pattern,
`None` when absent, otherwise `strptime` the captured text — which raises
`ValueError` (uncaught) when the digits are not a valid calendar datetime. -/
def parse_timestamp_from_header (header : String) :
    Except PyErr (Option Timestamp) :=
  match searchTs header.data with
  | none => Except.ok none
  | some (y, mo, d, h, mi) =>
      if validDateTime y mo d h mi then Except.ok (some ⟨y, mo, d, h, mi⟩)
      else Except.error PyErr.valueError

/-- `header and header.startswith("Data")`: non-empty and starting with the
four characters `Data`. -/
def isDataHeader (h : String) : Bool :=
  match h.data with
  | 'D' :: 'a' :: 't' :: 'a' :: _ => true
  | _ => false

/-- Days in all years before year `y` (proleptic Gregorian). -/
def daysBeforeYear (y : ℕ) : ℕ :=
  365 * (y - 1) + (y - 1) / 4 - (y - 1) / 100 + (y - 1) / 400

/-- Days in the months of year `y` strictly before month `m`. -/
def daysBeforeMonth (y m : ℕ) : ℕ :=
  (List.range (m - 1)).foldl (fun acc k => acc + daysInMonth y (k + 1)) 0

/-- Minutes from the epoch: the sort key ordering `datetime` comparison
induces (all parsed timestamps carry the same fixed time zone, so `datetime`
order is absolute-time order). -/
def Timestamp.toMinutes (t : Timestamp) : ℕ :=
  ((daysBeforeYear t.year + daysBeforeMonth t.year t.month + (t.day - 1)) * 24
      + t.hour) * 60 + t.minute

/-- The collection loop of `get_data_columns` (lines 52-58): walk the header
row with 1-based indices, keep `Data`-prefixed headers whose timestamp
parses, skip `Data`-prefixed headers with no embedded pattern, and let a
`ValueError` from `strptime` propagate. -/
def collectDataColumns : List String → ℕ → Except PyErr (List (ℕ × String × Timestamp))
  | [], _ => Except.ok []
  | h :: rest, idx =>
      if isDataHeader h then
        match parse_timestamp_from_header h with
        | Except.error e => Except.error e
        | Except.ok none => collectDataColumns rest (idx + 1)
        | Except.ok (some ts) => do
            let tail ← collectDataColumns rest (idx + 1)
            pure ((idx, h, ts) :: tail)
      else collectDataColumns rest (idx + 1)

/-- `get_data_columns` (lines 49-60) as a function of the header row:
collect, then `sorted(..., key=lambda x: x[2])`. -/
def get_data_columns (headers : List String) :
    Except PyErr (List (ℕ × String × Timestamp)) :=
  (collectDataColumns headers 1).map
    (List.insertionSort (fun a b => a.2.2.toMinutes ≤ b.2.2.toMinutes))

/-- Keep an enumerated header exactly when its label is `Data`-prefixed and
its embedded timestamp parses. -/
def dataColSpecF (p : ℕ × String) : Option (ℕ × String × Timestamp) :=
  if isDataHeader p.2 then
    match parse_timestamp_from_header p.2 with
    | Except.ok (some ts) => some (p.1, p.2, ts)
    | _ => none
  else none

/-- Written from the spec's words, for comparison with `get_data_columns`:
"exactly the columns whose label starts with the recognized 'Data' prefix
and contains a parseable embedded timestamp", in header order with 1-based
indices. -/
def dataColumnsSpec (headers : List String) : List (ℕ × String × Timestamp) :=
  (headers.enumFrom 1).filterMap dataColSpecF

/-- Written from the spec's words, for comparison with
`find_closest_data_column`: null when no column lies within the tolerance,
otherwise the column minimizing the absolute time distance, the first
encountered (in list order) winning ties. -/
def closestSpec (target window : ℤ) : List DCol → Option DCol
  | [] => none
  | c :: rest =>
      if timeDiff c target ≤ window then
        match closestSpec target window rest with
        | none => some c
        | some b =>
            if timeDiff b target < timeDiff c target then some b else some c
      else closestSpec target window rest

/-- A row of three already-numeric cells, as injected into the row loop. -/
def numTriple (r : ℚ × ℚ × ℚ) : Cell × Cell × Cell :=
  (Cell.num r.1, Cell.num r.2.1, Cell.num r.2.2)

/-- Whether a cell parses as a number without defaulting (a non-blank value
`float` accepts). -/
def isNum : Cell → Bool
  | Cell.num _ => true
  | _ => false

/-- The contribution of one hour-loop outcome to `cumulative_volume`. -/
def volOf : PairOutcome → ℚ
  | PairOutcome.computed _ _ v _ => v
  | _ => 0

/-- The breakdown entry one hour-loop outcome appends, if any (an
`IndexError`-skipped pair appends none). -/
def entryOf : PairOutcome → Option HBEntry
  | PairOutcome.missing p c => some ⟨p, c, none, true⟩
  | PairOutcome.skipped => none
  | PairOutcome.computed pt ct v _ => some ⟨pt, ct, some v, false⟩

/-! ## Helper lemmas -/

lemma foldl_add_eq_sum {α : Type} (f : α → ℚ) (l : List α) (init : ℚ) :
    l.foldl (fun acc t => acc + f t) init = init + (l.map f).sum := by
  induction l generalizing init with
  | nil => simp
  | cons t l ih => simp [ih, add_assoc]

lemma triplesVolume_eq_sum (l : List (Cell × Cell × Cell)) :
    triplesVolume l = (l.map rowContribution).sum := by
  simpa [triplesVolume] using foldl_add_eq_sum rowContribution l 0

lemma triplesVolume_cons (t : Cell × Cell × Cell) (l : List (Cell × Cell × Cell)) :
    triplesVolume (t :: l) = rowContribution t + triplesVolume l := by
  simp [triplesVolume_eq_sum]

lemma triplesVolume_append (l1 l2 : List (Cell × Cell × Cell)) :
    triplesVolume (l1 ++ l2) = triplesVolume l1 + triplesVolume l2 := by
  simp [triplesVolume_eq_sum]

lemma rowContribution_num (p c f : ℚ) :
    rowContribution (Cell.num p, Cell.num c, Cell.num f) = (p - c) * f := rfl

lemma rowContribution_garbage (t : Cell × Cell × Cell)
    (h : t.1 = Cell.garbage ∨ t.2.1 = Cell.garbage ∨ t.2.2 = Cell.garbage) :
    rowContribution t = 0 := by
  obtain ⟨p, c, f⟩ := t
  simp only at h
  rcases h with h | h | h
  · subst h; rfl
  · subst h
    cases p <;> rfl
  · subst h
    cases p <;> cases c <;> rfl

/-! ## C8: window dispatch examples -/

/-- Claim C8: the dispatch decision is a pure function of the wall-clock
(hour, minute); invoked at 11:15 it fires the 11 AM job, and invoked at
12:00 it fires no job at all. -/
theorem dispatch_at_1115_and_noon :
    Job.alert11am ∈ run_scheduled_alerts 11 15 ∧
    run_scheduled_alerts 12 0 = [] := by
  constructor
  · simp [run_scheduled_alerts]
  · rfl

/-! ## C10: the 9 PM window covers the whole hour -/

/-- Claim C10: at any minute of hour 21 the guard
`minute >= 10 or minute <= 40` holds, so the "9 PM window" jobs (the 6 PM
24-hour alert and the MTD alert) fire for the entire hour. -/
theorem nine_pm_window_covers_hour (m : ℕ) (hm : m ≤ 59) :
    run_scheduled_alerts 21 m = [Job.alert6pm, Job.mtd] := by
  unfold run_scheduled_alerts
  rw [if_neg (by omega), if_neg (by omega), if_pos (by omega)]

theorem nine_pm_window_covers_hour_witness :
    (5 : ℕ) ≤ 59 ∧ run_scheduled_alerts 21 5 = [Job.alert6pm, Job.mtd] :=
  ⟨by decide, nine_pm_window_covers_hour 5 (by decide)⟩

/-! ## C1: which malformed rows are excluded from the sum -/

/-- Claim C1 counterexample: a row whose later quantity cell is blank
(missing) is not excluded from the sum — the blank parses to the default 0,
so injecting the row changes `net_change` (here from 0 to 50). -/
theorem blank_cell_not_excluded :
    triplesVolume [(Cell.num 5, Cell.blank, Cell.num 10)] ≠ triplesVolume [] := by
  simp [triplesVolume, rowContribution, rowTryBody, floatOrZero, Bind.bind,
    Except.bind, Pure.pure, Except.pure]

/-- Claim C1 (amended): a row with a non-numeric (non-blank, unparseable)
quantity or face-value cell is excluded from the sum entirely — injecting it
anywhere leaves `net_change` unchanged; a blank cell, by contrast, is
treated as the numeric default 0. -/
theorem garbage_row_excluded (l1 l2 : List (Cell × Cell × Cell))
    (t : Cell × Cell × Cell)
    (h : t.1 = Cell.garbage ∨ t.2.1 = Cell.garbage ∨ t.2.2 = Cell.garbage) :
    triplesVolume (l1 ++ t :: l2) = triplesVolume (l1 ++ l2) ∧
    (∀ q f : ℚ, rowContribution (Cell.num q, Cell.blank, Cell.num f) = (q - 0) * f) ∧
    (∀ q f : ℚ, rowContribution (Cell.blank, Cell.num q, Cell.num f) = (0 - q) * f) := by
  refine ⟨?_, fun q f => rfl, fun q f => rfl⟩
  rw [triplesVolume_append, triplesVolume_append, triplesVolume_cons,
    rowContribution_garbage t h]
  ring

theorem garbage_row_excluded_witness :
    ((Cell.num 1, Cell.garbage, Cell.num 5).1 = Cell.garbage ∨
      (Cell.num 1, Cell.garbage, Cell.num 5).2.1 = Cell.garbage ∨
      (Cell.num 1, Cell.garbage, Cell.num 5).2.2 = Cell.garbage) ∧
    (triplesVolume [(Cell.num 2, Cell.num 1, Cell.num 3),
        (Cell.num 1, Cell.garbage, Cell.num 5)]
      = triplesVolume [(Cell.num 2, Cell.num 1, Cell.num 3)] ∧
     (∀ q f : ℚ, rowContribution (Cell.num q, Cell.blank, Cell.num f) = (q - 0) * f) ∧
     (∀ q f : ℚ, rowContribution (Cell.blank, Cell.num q, Cell.num f) = (0 - q) * f)) :=
  ⟨Or.inr (Or.inl rfl),
   garbage_row_excluded [(Cell.num 2, Cell.num 1, Cell.num 3)] []
     (Cell.num 1, Cell.garbage, Cell.num 5) (Or.inr (Or.inl rfl))⟩

/-! ## C9: reading face values never raises out of the aggregation -/

/-- Claim C9: the row loop run in the exception monad always completes with
`Except.ok` of the aggregate (the only exceptions `float` raises are
`ValueError`/`TypeError`, both caught into a per-row skip); a missing
(blank) face value is replaced by the neutral default 0, and a non-numeric
face value causes only that row's exclusion. -/
theorem face_value_never_raises :
    ∀ l : List (Cell × Cell × Cell),
      triplesVolumeE l = Except.ok (triplesVolume l) ∧
      (∀ p c : ℚ, rowContribution (Cell.num p, Cell.num c, Cell.blank) = (p - c) * 0) ∧
      (∀ p c : ℚ, rowContribution (Cell.num p, Cell.num c, Cell.garbage) = 0) := by
  have go : ∀ (l : List (Cell × Cell × Cell)) (acc : ℚ),
      l.foldlM
        (fun acc t =>
          (match rowTryBody t with
            | Except.ok v => Except.ok (acc + v)
            | Except.error PyErr.valueError => Except.ok acc
            | Except.error PyErr.typeError => Except.ok acc : Except PyErr ℚ))
        acc
      = Except.ok (l.foldl (fun acc t => acc + rowContribution t) acc) := by
    intro l
    induction l with
    | nil => intro acc; rfl
    | cons t l ih =>
        intro acc
        rcases ht : rowTryBody t with e | v
        · have hc : rowContribution t = 0 := by
            simp [rowContribution, ht]
          cases e <;> simp [List.foldlM, ht, ih, hc, Bind.bind, Except.bind]
        · have hc : rowContribution t = v := by
            simp [rowContribution, ht]
          simp [List.foldlM, ht, ih, hc, Bind.bind, Except.bind]
  intro l
  refine ⟨?_, fun p c => rfl, fun p c => rfl⟩
  simpa [triplesVolumeE, triplesVolume] using go l 0

/-! ## C3: single-interval net change formula, order independence -/

/-- Claim C3: for all-numeric row data, the single-interval `net_change`
equals the sum over rows of `(earlier - later) * face_value`, and the value
is invariant under permuting the rows. -/
theorem net_change_single_interval (rows rows2 : List (ℚ × ℚ × ℚ))
    (hperm : rows.Perm rows2) :
    triplesVolume (rows.map numTriple)
        = (rows.map (fun r => (r.1 - r.2.1) * r.2.2)).sum ∧
    triplesVolume (rows.map numTriple) = triplesVolume (rows2.map numTriple) := by
  constructor
  · rw [triplesVolume_eq_sum, List.map_map]
    congr 1
  · rw [triplesVolume_eq_sum, triplesVolume_eq_sum]
    exact ((hperm.map numTriple).map rowContribution).sum_eq

theorem net_change_single_interval_witness :
    ([((5 : ℚ), (3 : ℚ), (2 : ℚ)), ((1 : ℚ), (2 : ℚ), (10 : ℚ))].Perm
        [((1 : ℚ), (2 : ℚ), (10 : ℚ)), ((5 : ℚ), (3 : ℚ), (2 : ℚ))]) ∧
    (triplesVolume ([((5 : ℚ), (3 : ℚ), (2 : ℚ)), ((1 : ℚ), (2 : ℚ), (10 : ℚ))].map numTriple)
        = ([((5 : ℚ), (3 : ℚ), (2 : ℚ)), ((1 : ℚ), (2 : ℚ), (10 : ℚ))].map
            (fun r => (r.1 - r.2.1) * r.2.2)).sum ∧
     triplesVolume ([((5 : ℚ), (3 : ℚ), (2 : ℚ)), ((1 : ℚ), (2 : ℚ), (10 : ℚ))].map numTriple)
        = triplesVolume ([((1 : ℚ), (2 : ℚ), (10 : ℚ)), ((5 : ℚ), (3 : ℚ), (2 : ℚ))].map numTriple)) :=
  ⟨List.Perm.swap _ _ _,
   net_change_single_interval _ _ (List.Perm.swap _ _ _)⟩

/-! ## C2: insufficient data handling -/

/-- Claim C2 counterexample: with a single usable snapshot column (at minute
0, sheet column 4), `calculate_hourly_changes` over [0, 60] and
`calculate_mtd_volume_hourly` over a month containing only that column both
return `net_change = 0` with no error flag — the "insufficient data" error
result the claim requires is not produced. -/
theorem insufficient_data_silent_zero :
    (calculate_hourly_changes [⟨4, 0⟩]
        [[Cell.num 1, Cell.blank, Cell.num 100, Cell.num 5]] 0 60).error = none ∧
    (calculate_hourly_changes [⟨4, 0⟩]
        [[Cell.num 1, Cell.blank, Cell.num 100, Cell.num 5]] 0 60).netChange = 0 ∧
    (calculate_mtd_volume_hourly [⟨4, 0⟩]
        [[Cell.num 1, Cell.blank, Cell.num 100, Cell.num 5]] 0 1439).error = none ∧
    (calculate_mtd_volume_hourly [⟨4, 0⟩]
        [[Cell.num 1, Cell.blank, Cell.num 100, Cell.num 5]] 0 1439).netChange = 0 :=
  ⟨by decide, by decide, by decide, by decide⟩

/-- Claim C2 (amended): only `calculate_mtd_volume_hourly`, and only when
zero usable snapshot columns fall in the requested month range, returns an
explicit "insufficient data" error result; with exactly one usable column
(and in `calculate_hourly_changes` always) the aggregators instead return a
`net_change` of 0 with no error flag, missing intervals appearing only in
the breakdown. -/
theorem mtd_insufficient_data_error (cols : List DCol)
    (rows : List (List Cell)) (monthStart endTime : ℤ)
    (h : ∀ c ∈ cols, ¬(monthStart ≤ c.time ∧ c.time ≤ endTime)) :
    (calculate_mtd_volume_hourly cols rows monthStart endTime).error
        = some "Insufficient data for MTD calculation" ∧
    (calculate_mtd_volume_hourly cols rows monthStart endTime).netChange = 0 ∧
    (calculate_mtd_volume_hourly cols rows monthStart endTime).daysProcessed = 0 := by
  have hf : cols.filter (fun c => monthStart ≤ c.time && c.time ≤ endTime) = [] := by
    rw [List.filter_eq_nil_iff]
    intro c hc
    simpa using h c hc
  unfold calculate_mtd_volume_hourly
  rw [hf]
  simp

theorem mtd_insufficient_data_error_witness :
    (∀ c ∈ [(⟨4, 5000⟩ : DCol)], ¬((0 : ℤ) ≤ c.time ∧ c.time ≤ 1439)) ∧
    ((calculate_mtd_volume_hourly [⟨4, 5000⟩] [] 0 1439).error
        = some "Insufficient data for MTD calculation" ∧
     (calculate_mtd_volume_hourly [⟨4, 5000⟩] [] 0 1439).netChange = 0 ∧
     (calculate_mtd_volume_hourly [⟨4, 5000⟩] [] 0 1439).daysProcessed = 0) :=
  ⟨by decide, mtd_insufficient_data_error [⟨4, 5000⟩] [] 0 1439 (by decide)⟩

/-! ## C6: consecutive-interval aggregation telescopes -/

lemma intervalVolume_cons (x y g : Cell) (a b fs : List Cell) :
    intervalVolume (x :: a) (y :: b) (g :: fs)
      = rowContribution (x, y, g) + intervalVolume a b fs := by
  simp [intervalVolume, zipCols, triplesVolume_cons]

lemma rowContribution_self (x g : Cell) : rowContribution (x, x, g) = 0 := by
  cases x <;> cases g <;>
    simp [rowContribution, rowTryBody, floatOrZero, Bind.bind, Except.bind,
      Pure.pure, Except.pure]

lemma intervalVolume_self (a : List Cell) : ∀ fs, intervalVolume a a fs = 0 := by
  induction a with
  | nil => intro fs; simp [intervalVolume, zipCols, triplesVolume]
  | cons x a ih =>
      intro fs
      cases fs with
      | nil => simp [intervalVolume, zipCols, triplesVolume]
      | cons g fs => rw [intervalVolume_cons, rowContribution_self, ih fs, add_zero]

lemma rowContribution_face (g : Cell) :
    ∃ w : ℚ, ∀ p c : ℚ,
      rowContribution (Cell.num p, Cell.num c, g) = (p - c) * w := by
  cases g with
  | blank => exact ⟨0, fun p c => rfl⟩
  | num w => exact ⟨w, fun p c => rfl⟩
  | garbage =>
      refine ⟨0, fun p c => ?_⟩
      rw [mul_zero]
      rfl

lemma intervalVolume_trans (fs : List Cell) : ∀ a b c : List Cell,
    a.all isNum = true → b.all isNum = true → c.all isNum = true →
    a.length = fs.length → b.length = fs.length → c.length = fs.length →
    intervalVolume a b fs + intervalVolume b c fs = intervalVolume a c fs := by
  induction fs with
  | nil =>
      intro a b c _ _ _ ha hb hc
      rw [List.length_nil, List.length_eq_zero] at ha hb hc
      subst ha; subst hb; subst hc
      simp [intervalVolume, zipCols, triplesVolume]
  | cons g fs ih =>
      intro a b c hna hnb hnc ha hb hc
      cases a with
      | nil => simp at ha
      | cons x a =>
      cases b with
      | nil => simp at hb
      | cons y b =>
      cases c with
      | nil => simp at hc
      | cons z c =>
      simp only [List.all_cons, Bool.and_eq_true] at hna hnb hnc
      obtain ⟨qx, hx⟩ : ∃ q, x = Cell.num q := by
        cases x with
        | num q => exact ⟨q, rfl⟩
        | blank => exact absurd hna.1 (by simp [isNum])
        | garbage => exact absurd hna.1 (by simp [isNum])
      obtain ⟨qy, hy⟩ : ∃ q, y = Cell.num q := by
        cases y with
        | num q => exact ⟨q, rfl⟩
        | blank => exact absurd hnb.1 (by simp [isNum])
        | garbage => exact absurd hnb.1 (by simp [isNum])
      obtain ⟨qz, hz⟩ : ∃ q, z = Cell.num q := by
        cases z with
        | num q => exact ⟨q, rfl⟩
        | blank => exact absurd hnc.1 (by simp [isNum])
        | garbage => exact absurd hnc.1 (by simp [isNum])
      subst hx; subst hy; subst hz
      have hrec := ih a b c hna.2 hnb.2 hnc.2 (by simpa using ha)
        (by simpa using hb) (by simpa using hc)
      obtain ⟨w, hw⟩ := rowContribution_face g
      rw [intervalVolume_cons, intervalVolume_cons, intervalVolume_cons,
        hw, hw, hw]
      linear_combination hrec

lemma consecutiveVolume_cons₂ (a b : List Cell) (r : List (List Cell))
    (fs : List Cell) :
    consecutiveVolume (a :: b :: r) fs
      = intervalVolume a b fs + consecutiveVolume (b :: r) fs := by
  simp [consecutiveVolume]

lemma consecutiveVolume_telescope (fs : List Cell)
    (rest : List (List Cell)) : ∀ a : List Cell,
    (∀ col ∈ a :: rest, col.all isNum = true) →
    (∀ col ∈ a :: rest, col.length = fs.length) →
    consecutiveVolume (a :: rest) fs
      = intervalVolume a ((a :: rest).getLast (List.cons_ne_nil a rest)) fs := by
  induction rest with
  | nil =>
      intro a _ _
      simp [consecutiveVolume, List.getLast, (intervalVolume_self a fs).symm]
  | cons b rest ih =>
      intro a hnum hlen
      rw [consecutiveVolume_cons₂,
        List.getLast_cons (List.cons_ne_nil b rest),
        ih b (fun col hc => hnum col (List.mem_cons_of_mem a hc))
          (fun col hc => hlen col (List.mem_cons_of_mem a hc))]
      have hmem : (b :: rest).getLast (List.cons_ne_nil b rest) ∈ b :: rest :=
        List.getLast_mem _
      exact intervalVolume_trans fs a b _
        (hnum a (List.mem_cons_self a _))
        (hnum b (List.mem_cons_of_mem a (List.mem_cons_self b _)))
        (hnum _ (List.mem_cons_of_mem a hmem))
        (hlen a (List.mem_cons_self a _))
        (hlen b (List.mem_cons_of_mem a (List.mem_cons_self b _)))
        (hlen _ (List.mem_cons_of_mem a hmem))

/-- Claim C6: over an ordered sequence of snapshot columns the aggregation
sums deltas between consecutive columns only — N columns give N-1 summands,
two columns give exactly the direct two-column delta — and for fully numeric,
aligned data the sum telescopes to the direct first-to-last delta. -/
theorem consecutive_interval_aggregation (cols : List (List Cell))
    (faces : List Cell) (first last : List Cell)
    (hfirst : cols.head? = some first) (hlast : cols.getLast? = some last)
    (hnum : ∀ col ∈ cols, col.all isNum = true)
    (hfnum : faces.all isNum = true)
    (hlen : ∀ col ∈ cols, col.length = faces.length) :
    consecutiveVolume cols faces
        = ((cols.zip cols.tail).map (fun p => intervalVolume p.1 p.2 faces)).sum ∧
    (cols.zip cols.tail).length = cols.length - 1 ∧
    consecutiveVolume cols faces = intervalVolume first last faces := by
  cases cols with
  | nil => simp at hfirst
  | cons a rest =>
      have hfa : first = a := by
        simpa using hfirst.symm
      subst hfa
      refine ⟨rfl, ?_, ?_⟩
      · simp [List.length_zip]
      · have hl : last = (first :: rest).getLast (List.cons_ne_nil first rest) := by
          rw [List.getLast?_eq_getLast (first :: rest)
            (List.cons_ne_nil first rest)] at hlast
          exact (Option.some_inj.mp hlast).symm
        rw [hl]
        exact consecutiveVolume_telescope faces rest first hnum hlen

theorem consecutive_interval_aggregation_witness :
    (([[Cell.num 5], [Cell.num 3], [Cell.num 2]] : List (List Cell)).head?
        = some [Cell.num 5] ∧
     ([[Cell.num 5], [Cell.num 3], [Cell.num 2]] : List (List Cell)).getLast?
        = some [Cell.num 2]) ∧
    (consecutiveVolume [[Cell.num 5], [Cell.num 3], [Cell.num 2]] [Cell.num 10]
        = ((([[Cell.num 5], [Cell.num 3], [Cell.num 2]] : List (List Cell)).zip
            ([[Cell.num 5], [Cell.num 3], [Cell.num 2]] : List (List Cell)).tail).map
            (fun p => intervalVolume p.1 p.2 [Cell.num 10])).sum ∧
     (([[Cell.num 5], [Cell.num 3], [Cell.num 2]] : List (List Cell)).zip
        ([[Cell.num 5], [Cell.num 3], [Cell.num 2]] : List (List Cell)).tail).length
        = ([[Cell.num 5], [Cell.num 3], [Cell.num 2]] : List (List Cell)).length - 1 ∧
     consecutiveVolume [[Cell.num 5], [Cell.num 3], [Cell.num 2]] [Cell.num 10]
        = intervalVolume [Cell.num 5] [Cell.num 2] [Cell.num 10]) :=
  ⟨⟨rfl, rfl⟩,
   consecutive_interval_aggregation
     [[Cell.num 5], [Cell.num 3], [Cell.num 2]] [Cell.num 10]
     [Cell.num 5] [Cell.num 2] rfl rfl (by decide) (by decide) (by decide)⟩

/-! ## C5: closest-column lookup -/

lemma findClosestAux_some (target window : ℤ) (l : List DCol) : ∀ b : DCol,
    findClosestAux target window l (some b) (timeDiff b target)
      = match closestSpec target window l with
        | none => some b
        | some c =>
            if timeDiff c target < timeDiff b target then some c else some b := by
  induction l with
  | nil => intro b; rfl
  | cons c rest ih =>
      intro b
      by_cases h1 : timeDiff c target ≤ window
      · by_cases h2 : timeDiff c target < timeDiff b target
        · rw [findClosestAux, if_pos ⟨h1, h2⟩, ih c]
          cases hs : closestSpec target window rest with
          | none => simp [closestSpec, h1, hs, h2]
          | some d =>
              by_cases h3 : timeDiff d target < timeDiff c target
              · have h4 : timeDiff d target < timeDiff b target := lt_trans h3 h2
                simp [closestSpec, h1, hs, h3, h4]
              · simp [closestSpec, h1, hs, h3, h2]
        · rw [findClosestAux, if_neg (fun h => h2 h.2), ih b]
          cases hs : closestSpec target window rest with
          | none => simp [closestSpec, h1, hs, h2]
          | some d =>
              by_cases h3 : timeDiff d target < timeDiff c target
              · simp [closestSpec, h1, hs, h3]
              · have h4 : ¬ timeDiff d target < timeDiff b target :=
                  not_lt.mpr (le_trans (not_lt.mp h2) (not_lt.mp h3))
                simp [closestSpec, h1, hs, h3, h2, h4]
      · rw [findClosestAux, if_neg (fun h => h1 h.1), ih b]
        cases hs : closestSpec target window rest <;>
          simp [closestSpec, h1, hs]

lemma find_closest_eq_spec (target window : ℤ) (hw : window < initMinDiff)
    (cols : List DCol) :
    find_closest_data_column cols target window
      = closestSpec target window cols := by
  unfold find_closest_data_column
  induction cols with
  | nil => rfl
  | cons c rest ih =>
      by_cases h1 : timeDiff c target ≤ window
      · have h2 : timeDiff c target < initMinDiff := lt_of_le_of_lt h1 hw
        rw [findClosestAux, if_pos ⟨h1, h2⟩, findClosestAux_some]
        cases hs : closestSpec target window rest <;>
          simp [closestSpec, h1, hs]
      · rw [findClosestAux, if_neg (fun h => h1 h.1), ih]
        simp [closestSpec, h1]

lemma closestSpec_none_iff (target window : ℤ) (l : List DCol) :
    closestSpec target window l = none
      ↔ ∀ c ∈ l, ¬ timeDiff c target ≤ window := by
  induction l with
  | nil => simp [closestSpec]
  | cons c rest ih =>
      by_cases h1 : timeDiff c target ≤ window
      · cases hs : closestSpec target window rest with
        | none => simp [closestSpec, h1, hs]
        | some d =>
            simp only [closestSpec, if_pos h1, hs]
            constructor
            · intro hcontra
              exfalso
              revert hcontra
              split <;> simp
            · intro hall
              exfalso
              exact absurd h1 (hall c (List.mem_cons_self c rest))
      · simp [closestSpec, h1, ih, not_le.mp h1]

lemma closestSpec_some (target window : ℤ) (l : List DCol) : ∀ b : DCol,
    closestSpec target window l = some b →
      b ∈ l ∧ timeDiff b target ≤ window ∧
      (∀ c ∈ l, timeDiff c target ≤ window →
          timeDiff b target ≤ timeDiff c target) ∧
      ∃ l1 l2, l = l1 ++ b :: l2 ∧
        ∀ c ∈ l1, timeDiff c target ≤ window →
          timeDiff b target < timeDiff c target := by
  induction l with
  | nil => intro b h; simp [closestSpec] at h
  | cons c rest ih =>
      intro b h
      simp only [closestSpec] at h
      by_cases h1 : timeDiff c target ≤ window
      · rw [if_pos h1] at h
        cases hs : closestSpec target window rest with
        | none =>
            rw [hs] at h
            have hb : c = b := by simpa using h
            subst hb
            refine ⟨List.mem_cons_self c rest, h1, ?_, [], rest, rfl, by simp⟩
            intro x hx hxw
            rcases List.mem_cons.mp hx with hx | hx
            · subst hx; exact le_refl _
            · exact absurd hxw ((closestSpec_none_iff target window rest).mp hs x hx)
        | some d =>
            rw [hs] at h
            have h' : (if timeDiff d target < timeDiff c target then some d
                else some c) = some b := h
            obtain ⟨hdmem, hdw, hdmin, l1, l2, hdec, hfirst⟩ := ih d hs
            by_cases h3 : timeDiff d target < timeDiff c target
            · rw [if_pos h3] at h'
              have hb : d = b := by simpa using h'
              subst hb
              refine ⟨List.mem_cons_of_mem c hdmem, hdw, ?_, c :: l1, l2,
                by simp [hdec], ?_⟩
              · intro x hx hxw
                rcases List.mem_cons.mp hx with hx | hx
                · subst hx; exact le_of_lt h3
                · exact hdmin x hx hxw
              · intro x hx hxw
                rcases List.mem_cons.mp hx with hx | hx
                · subst hx; exact h3
                · exact hfirst x hx hxw
            · rw [if_neg h3] at h'
              have hb : c = b := by simpa using h'
              subst hb
              refine ⟨List.mem_cons_self c rest, h1, ?_, [], rest, rfl, by simp⟩
              intro x hx hxw
              rcases List.mem_cons.mp hx with hx | hx
              · subst hx; exact le_refl _
              · exact le_trans (not_lt.mp h3) (hdmin x hx hxw)
      · rw [if_neg h1] at h
        obtain ⟨hbmem, hbw, hbmin, l1, l2, hdec, hfirst⟩ := ih b h
        refine ⟨List.mem_cons_of_mem c hbmem, hbw, ?_, c :: l1, l2,
          by simp [hdec], ?_⟩
        · intro x hx hxw
          rcases List.mem_cons.mp hx with hx | hx
          · subst hx; exact absurd hxw h1
          · exact hbmin x hx hxw
        · intro x hx hxw
          rcases List.mem_cons.mp hx with hx | hx
          · subst hx; exact absurd hxw h1
          · exact hfirst x hx hxw

/-- Claim C5 counterexample: with the tolerance set to 999 days (1438560
minutes, the loop's initial `min_time_diff`), a column exactly 999 days
from the target lies within tolerance yet the lookup returns `None`:
`time_diff < min_time_diff` is strict, so the claim fails as stated for
every `window_minutes`. -/
theorem closest_column_tolerance_cap :
    find_closest_data_column [⟨1, 0⟩] 1438560 1438560 = none ∧
    timeDiff ⟨1, 0⟩ 1438560 ≤ 1438560 := by decide

/-- Claim C5 (amended): for tolerances below `timedelta(days=999)` (the
initial `min_time_diff`), the lookup returns `None` exactly when no column
lies within the tolerance, otherwise it returns a column within tolerance
minimizing the absolute time distance, and on ties the first encountered in
list (ascending-timestamp) order: every qualifying column strictly earlier
in the list is strictly farther from the target. -/
theorem find_closest_column_spec (cols : List DCol) (target window : ℤ)
    (hw : window < initMinDiff) :
    ((∀ c ∈ cols, ¬ timeDiff c target ≤ window) →
        find_closest_data_column cols target window = none) ∧
    ((∃ c ∈ cols, timeDiff c target ≤ window) →
        ∃ b, find_closest_data_column cols target window = some b) ∧
    (∀ b, find_closest_data_column cols target window = some b →
        b ∈ cols ∧ timeDiff b target ≤ window ∧
        (∀ c ∈ cols, timeDiff c target ≤ window →
            timeDiff b target ≤ timeDiff c target) ∧
        ∃ l1 l2, cols = l1 ++ b :: l2 ∧
          ∀ c ∈ l1, timeDiff c target ≤ window →
            timeDiff b target < timeDiff c target) := by
  rw [find_closest_eq_spec target window hw]
  refine ⟨fun h => (closestSpec_none_iff target window cols).mpr h, ?_,
    fun b hb => closestSpec_some target window cols b hb⟩
  rintro ⟨c, hc, hcw⟩
  cases hs : closestSpec target window cols with
  | none => exact absurd hcw ((closestSpec_none_iff target window cols).mp hs c hc)
  | some b => exact ⟨b, rfl⟩

theorem find_closest_column_spec_witness :
    (30 : ℤ) < initMinDiff ∧
    (((∀ c ∈ [(⟨1, 100⟩ : DCol), ⟨2, 160⟩], ¬ timeDiff c 130 ≤ 30) →
        find_closest_data_column [⟨1, 100⟩, ⟨2, 160⟩] 130 30 = none) ∧
     ((∃ c ∈ [(⟨1, 100⟩ : DCol), ⟨2, 160⟩], timeDiff c 130 ≤ 30) →
        ∃ b, find_closest_data_column [⟨1, 100⟩, ⟨2, 160⟩] 130 30 = some b) ∧
     (∀ b, find_closest_data_column [⟨1, 100⟩, ⟨2, 160⟩] 130 30 = some b →
        b ∈ [(⟨1, 100⟩ : DCol), ⟨2, 160⟩] ∧ timeDiff b 130 ≤ 30 ∧
        (∀ c ∈ [(⟨1, 100⟩ : DCol), ⟨2, 160⟩], timeDiff c 130 ≤ 30 →
            timeDiff b 130 ≤ timeDiff c 130) ∧
        ∃ l1 l2, [(⟨1, 100⟩ : DCol), ⟨2, 160⟩] = l1 ++ b :: l2 ∧
          ∀ c ∈ l1, timeDiff c 130 ≤ 30 →
            timeDiff b 130 < timeDiff c 130)) :=
  ⟨by decide, find_closest_column_spec [⟨1, 100⟩, ⟨2, 160⟩] 130 30 (by decide)⟩

/-! ## C7: missing intervals are recorded and excluded, not fatal -/

lemma hourlyFold_char (cols : List DCol) (rows : List (List Cell))
    (faces : List Cell) (l : List (ℕ × ℤ × ℤ)) : ∀ st0 : HLoopState,
    ((l.foldl (fun st p =>
        hourlyStep st p.1 (classifyPair cols rows faces p.2.1 p.2.2)) st0).bd
      = st0.bd ++ l.filterMap
          (fun p => entryOf (classifyPair cols rows faces p.2.1 p.2.2))) ∧
    ((l.foldl (fun st p =>
        hourlyStep st p.1 (classifyPair cols rows faces p.2.1 p.2.2)) st0).cum
      = st0.cum + (l.map
          (fun p => volOf (classifyPair cols rows faces p.2.1 p.2.2))).sum) := by
  induction l with
  | nil => intro st0; simp
  | cons p l ih =>
      intro st0
      rw [List.foldl_cons]
      cases hcl : classifyPair cols rows faces p.2.1 p.2.2 with
      | missing a b =>
          obtain ⟨ihbd, ihcum⟩ := ih (hourlyStep st0 p.1 (PairOutcome.missing a b))
          constructor
          · rw [ihbd]
            simp [hourlyStep, hcl, entryOf]
          · rw [ihcum]
            simp [hourlyStep, hcl, volOf]
      | skipped =>
          obtain ⟨ihbd, ihcum⟩ := ih (hourlyStep st0 p.1 PairOutcome.skipped)
          constructor
          · rw [ihbd]
            simp [hourlyStep, hcl, entryOf]
          · rw [ihcum]
            simp [hourlyStep, hcl, volOf]
      | computed pt ct v nb =>
          obtain ⟨ihbd, ihcum⟩ :=
            ih (hourlyStep st0 p.1 (PairOutcome.computed pt ct v nb))
          constructor
          · rw [ihbd]
            simp [hourlyStep, hcl, entryOf]
          · rw [ihcum]
            simp [hourlyStep, hcl, volOf]
            ring

/-- Claim C7: a consecutive target pair with no snapshot column inside the
30-minute tolerance is recorded in the breakdown with the `missing` flag,
contributes 0 to the cumulative sum (which remains the sum over the other
pairs' computed volumes), and the calculation still completes normally
(no error result). -/
theorem missing_interval_recorded (cols : List DCol) (rows : List (List Cell))
    (s e p c : ℤ)
    (hrows : rows.any (fun r => r.length < 3) = false)
    (hmem : (p, c) ∈ (hourlyTimestamps s e).zip (hourlyTimestamps s e).tail)
    (hmiss : find_closest_data_column cols p 30 = none ∨
             find_closest_data_column cols c 30 = none) :
    (⟨p, c, none, true⟩ : HBEntry)
        ∈ (calculate_hourly_changes cols rows s e).breakdown ∧
    (calculate_hourly_changes cols rows s e).netChange
        = (((hourlyTimestamps s e).zip (hourlyTimestamps s e).tail).map
            (fun q => volOf (classifyPair cols rows (colVals rows 3) q.1 q.2))).sum ∧
    volOf (classifyPair cols rows (colVals rows 3) p c) = 0 ∧
    (calculate_hourly_changes cols rows s e).error = none := by
  have hcl : classifyPair cols rows (colVals rows 3) p c
      = PairOutcome.missing p c := by
    unfold classifyPair
    cases hf1 : find_closest_data_column cols p 30 with
    | none => cases hf2 : find_closest_data_column cols c 30 <;> rfl
    | some a =>
        cases hf2 : find_closest_data_column cols c 30 with
        | none => rfl
        | some b =>
            exfalso
            rcases hmiss with hm | hm
            · rw [hm] at hf1; exact Option.noConfusion hf1
            · rw [hm] at hf2; exact Option.noConfusion hf2
  obtain ⟨hbd, hcum⟩ := hourlyFold_char cols rows (colVals rows 3)
    (((hourlyTimestamps s e).zip (hourlyTimestamps s e).tail).enum) ⟨0, 0, 0, []⟩
  have hsnd : (((hourlyTimestamps s e).zip (hourlyTimestamps s e).tail).enum).map
      Prod.snd = (hourlyTimestamps s e).zip (hourlyTimestamps s e).tail :=
    List.enum_map_snd _
  refine ⟨?_, ?_, ?_, ?_⟩
  · simp only [calculate_hourly_changes, hrows, Bool.false_eq_true, if_false]
    rw [hbd]
    rw [← hsnd] at hmem
    obtain ⟨q, hq, hqsnd⟩ := List.mem_map.mp hmem
    refine List.mem_append.mpr (Or.inr (List.mem_filterMap.mpr ⟨q, hq, ?_⟩))
    have : (q.2.1, q.2.2) = (p, c) := by
      rw [← hqsnd]
    have h1 : q.2.1 = p := congrArg Prod.fst this
    have h2 : q.2.2 = c := congrArg Prod.snd this
    rw [h1, h2, hcl]
    rfl
  · simp only [calculate_hourly_changes, hrows, Bool.false_eq_true, if_false]
    rw [hcum]
    rw [show (fun q : ℕ × ℤ × ℤ =>
        volOf (classifyPair cols rows (colVals rows 3) q.2.1 q.2.2))
      = (fun r : ℤ × ℤ => volOf (classifyPair cols rows (colVals rows 3) r.1 r.2))
          ∘ Prod.snd from rfl, ← List.map_map, hsnd, zero_add]
  · rw [hcl]
    rfl
  · simp only [calculate_hourly_changes, hrows, Bool.false_eq_true, if_false]

theorem missing_interval_recorded_witness :
    ([[Cell.num 1, Cell.blank, Cell.num 100, Cell.num 5]].any
        (fun r => r.length < 3) = false) ∧
    ((60, 120) ∈ (hourlyTimestamps 0 120).zip (hourlyTimestamps 0 120).tail) ∧
    (find_closest_data_column [⟨4, 0⟩] 60 30 = none ∨
        find_closest_data_column [⟨4, 0⟩] 120 30 = none) ∧
    ((⟨60, 120, none, true⟩ : HBEntry)
        ∈ (calculate_hourly_changes [⟨4, 0⟩]
            [[Cell.num 1, Cell.blank, Cell.num 100, Cell.num 5]] 0 120).breakdown ∧
     (calculate_hourly_changes [⟨4, 0⟩]
            [[Cell.num 1, Cell.blank, Cell.num 100, Cell.num 5]] 0 120).netChange
        = (((hourlyTimestamps 0 120).zip (hourlyTimestamps 0 120).tail).map
            (fun q => volOf (classifyPair [⟨4, 0⟩]
              [[Cell.num 1, Cell.blank, Cell.num 100, Cell.num 5]]
              (colVals [[Cell.num 1, Cell.blank, Cell.num 100, Cell.num 5]] 3)
              q.1 q.2))).sum ∧
     volOf (classifyPair [⟨4, 0⟩]
        [[Cell.num 1, Cell.blank, Cell.num 100, Cell.num 5]]
        (colVals [[Cell.num 1, Cell.blank, Cell.num 100, Cell.num 5]] 3)
        60 120) = 0 ∧
     (calculate_hourly_changes [⟨4, 0⟩]
        [[Cell.num 1, Cell.blank, Cell.num 100, Cell.num 5]] 0 120).error
        = none) :=
  ⟨by decide, by decide, Or.inl (by decide),
   missing_interval_recorded [⟨4, 0⟩]
     [[Cell.num 1, Cell.blank, Cell.num 100, Cell.num 5]] 0 120 60 120
     (by decide) (by decide) (Or.inl (by decide))⟩

/-! ## C4: the timestamp column index -/

/-- Claim C4 counterexample: on the header row
`["Data (2025-01-01 10:99)"]` the embedded text matches the timestamp
pattern but is not a parseable datetime (minute 99), and instead of silently
excluding the column, `get_data_columns` propagates the `ValueError` raised
by `strptime` — in particular it does not return the empty column list the
claim requires. -/
theorem invalid_timestamp_raises :
    get_data_columns ["Data (2025-01-01 10:99)"] = Except.error PyErr.valueError ∧
    get_data_columns ["Data (2025-01-01 10:99)"] ≠ Except.ok [] := by
  constructor
  · rfl
  · intro h
    rw [show get_data_columns ["Data (2025-01-01 10:99)"]
        = Except.error PyErr.valueError from rfl] at h
    exact Except.noConfusion h

lemma collectDataColumns_ok : ∀ (headers : List String) (k : ℕ),
    (∀ h ∈ headers, isDataHeader h = true →
      (parse_timestamp_from_header h).isOk = true) →
    collectDataColumns headers k
      = Except.ok ((headers.enumFrom k).filterMap dataColSpecF) := by
  intro headers
  induction headers with
  | nil => intro k _; rfl
  | cons h rest ih =>
      intro k hsafe
      have hsafeR : ∀ x ∈ rest, isDataHeader x = true →
          (parse_timestamp_from_header x).isOk = true :=
        fun x hx => hsafe x (List.mem_cons_of_mem h hx)
      by_cases hd : isDataHeader h = true
      · cases hp : parse_timestamp_from_header h with
        | error e =>
            have hok := hsafe h (List.mem_cons_self h rest) hd
            rw [hp] at hok
            simp [Except.isOk, Except.toBool] at hok
        | ok o =>
            cases o with
            | none =>
                simp only [collectDataColumns, hd, if_true, hp]
                rw [ih (k + 1) hsafeR]
                simp [List.enumFrom, dataColSpecF, hd, hp]
            | some ts =>
                simp only [collectDataColumns, hd, if_true, hp]
                rw [ih (k + 1) hsafeR]
                simp [List.enumFrom, dataColSpecF, hd, hp, Bind.bind,
                  Except.bind, Pure.pure, Except.pure]
      · simp only [collectDataColumns]
        rw [if_neg hd, ih (k + 1) hsafeR]
        simp [List.enumFrom, dataColSpecF, hd]

/-- Claim C4 (amended): provided no `Data`-prefixed header embeds a
pattern-matching but calendar-invalid timestamp (on such a header the
function instead raises `strptime`'s `ValueError`), `get_data_columns`
returns exactly the columns whose label starts with the `Data` prefix and
contains a parseable `(YYYY-MM-DD HH:MM)` timestamp — others are silently
excluded — sorted ascending by timestamp; it is a pure function of the
header row and returns the empty list for an empty header row. -/
theorem get_data_columns_spec (headers : List String)
    (hsafe : ∀ h ∈ headers, isDataHeader h = true →
      (parse_timestamp_from_header h).isOk = true) :
    ∃ l, get_data_columns headers = Except.ok l ∧
      l.Perm (dataColumnsSpec headers) ∧
      List.Sorted (fun a b : ℕ × String × Timestamp =>
        a.2.2.toMinutes ≤ b.2.2.toMinutes) l ∧
      get_data_columns [] = Except.ok [] := by
  refine ⟨List.insertionSort (fun a b => a.2.2.toMinutes ≤ b.2.2.toMinutes)
      (dataColumnsSpec headers), ?_, List.perm_insertionSort _ _, ?_, rfl⟩
  · unfold get_data_columns
    rw [collectDataColumns_ok headers 1 hsafe]
    rfl
  · letI : IsTotal (ℕ × String × Timestamp)
        (fun a b => a.2.2.toMinutes ≤ b.2.2.toMinutes) :=
      ⟨fun a b => le_total _ _⟩
    letI : IsTrans (ℕ × String × Timestamp)
        (fun a b => a.2.2.toMinutes ≤ b.2.2.toMinutes) :=
      ⟨fun a b c hab hbc => le_trans hab hbc⟩
    exact List.sorted_insertionSort _ _

theorem get_data_columns_spec_witness :
    (∀ h ∈ ["Name", "Data (2025-10-03 15:50)", "Data", "Data (2025-10-03 14:50)"],
      isDataHeader h = true → (parse_timestamp_from_header h).isOk = true) ∧
    (∃ l, get_data_columns
        ["Name", "Data (2025-10-03 15:50)", "Data", "Data (2025-10-03 14:50)"]
        = Except.ok l ∧
      l.Perm (dataColumnsSpec
        ["Name", "Data (2025-10-03 15:50)", "Data", "Data (2025-10-03 14:50)"]) ∧
      List.Sorted (fun a b : ℕ × String × Timestamp =>
        a.2.2.toMinutes ≤ b.2.2.toMinutes) l ∧
      get_data_columns [] = Except.ok []) :=
  ⟨by decide,
   get_data_columns_spec
     ["Name", "Data (2025-10-03 15:50)", "Data", "Data (2025-10-03 14:50)"]
     (by decide)⟩

end Spec2Proof
